import Mathlib

/-!
Verification of the feature-alignment and explanation-generation pipeline of
the house-price predictor (`predict.py`, class `HousePricePredictor`).

The Python code is shallowly embedded as follows:

* a Python `dict` (a `RawCase` / a one-row `DataFrame`) is an association
  list `List (String × CellVal)` with first-match lookup (Python dict keys
  are unique, so first-match lookup agrees with dict lookup);
* machine floats are modelled as exact rationals `ℚ`;
* `_preprocess` (lines 80-103 of `predict.py`) is `preprocess`:
  `setdefaults` models the `case_dict.setdefault(c, "")` loop,
  `get_dummies` models `pd.get_dummies(df, columns=categorical_cols)` on a
  one-row frame (non-categorical columns keep their order, then one
  indicator column per categorical column, named `"<col>_<str(value)>"`,
  with value 1, in `categorical_cols` order),
  `addMissing` models the `missing_cols` concat (the set-difference order is
  irrelevant because the final step reorders; we use schema order),
  `selectSchema` models `df[self.model_features]`;
* `generate_chinese_explanation` (lines 117-144) is
  `generate_chinese_explanation` built from `composeItems` (the
  `sorted(zip(...), key=abs, reverse=True)[:top_n]` ranking — Python's
  `sorted` is stable, with `reverse=True` equal keys keep original order,
  which the insertion sort `sortByKeyDesc` reproduces) and `composeLines`
  (the literal narration lines); `%.2f` formatting is modelled by `fmt2`
  (round to the nearest hundredth);
* `__init__` (lines 30-45) is `initPredictor`, with the filesystem
  abstracted as a predicate `String → Bool` telling which paths exist.
-/

namespace HousePriceModel

/-- A cell value flowing through `_preprocess`: either a free-form string
(categorical attributes) or a number (numeric / boolean attributes, booleans
encoded as 0 / 1, per the data model of the spec). -/
inductive CellVal where
  | str : String → CellVal
  | num : ℚ → CellVal
deriving DecidableEq, Repr

/-- A raw case / a one-row data frame: ordered association list from column
name to cell value (Python dict preserves insertion order). -/
abbrev RawCase := List (String × CellVal)

/-- Python `str(value)`, as used by `pd.get_dummies` to form the dummy-column
name `"<col>_<value>"`.  For the string values that actually occur it is the
identity. -/
def strOfCell : CellVal → String
  | .str s => s
  | .num q => if q.den = 1 then toString q.num else toString q

/-- `self.categorical_cols` from `HousePricePredictor.__init__`. -/
def categorical_cols : List String := ["district", "building_type", "main_use"]

/-- One `case_dict.setdefault(c, "")` step: if the key is absent, append it
with the empty string (Python dicts append new keys at the end). -/
def setdefault1 (caseDict : RawCase) (c : String) : RawCase :=
  if (caseDict.lookup c).isSome then caseDict
  else caseDict ++ [(c, CellVal.str "")]

/-- The `for c in self.categorical_cols: case_dict.setdefault(c, "")` loop
at the top of `_preprocess`.  Note this mutates the caller's dict in the
Python code; `setdefaults caseDict` is the dict's state after the loop. -/
def setdefaults (caseDict : RawCase) : RawCase :=
  categorical_cols.foldl setdefault1 caseDict

/-- `pd.get_dummies(df, columns=self.categorical_cols, drop_first=False)` on
a one-row frame: the non-categorical columns keep their order, then one
indicator column per categorical column present, named
`"<col>_<str(value)>"` with value `1`, in `categorical_cols` order. -/
def get_dummies (row : RawCase) : RawCase :=
  row.filter (fun p => !(categorical_cols.contains p.1)) ++
    categorical_cols.filterMap
      (fun c => (row.lookup c).map
        (fun v => (c ++ "_" ++ strOfCell v, CellVal.num 1)))

/-- The `missing_cols` reconciliation: every schema column absent from the
expanded row is appended with value `0` (the code appends them in Python set
order; since the final step reorders to schema order, we use schema order). -/
def addMissing (row : RawCase) (schema : List String) : RawCase :=
  row ++ (schema.filter (fun s => (row.lookup s).isNone)).map
    (fun s => (s, CellVal.num 0))

/-- `df[self.model_features]`: select the schema columns, in schema order
(a column actually missing would be a pandas `KeyError`; it is simply
dropped here, and `schema_fidelity` shows this never happens because
`addMissing` makes every schema column present). -/
def selectSchema (row : RawCase) (schema : List String) : RawCase :=
  schema.filterMap (fun s => (row.lookup s).map (fun v => (s, v)))

/-- `HousePricePredictor._preprocess` (lines 80-103 of `predict.py`),
parameterised by the `FeatureSchema` (`self.model_features`). -/
def preprocess (caseDict : RawCase) (schema : List String) : RawCase :=
  selectSchema (addMissing (get_dummies (setdefaults caseDict)) schema) schema

/-- The caller's `case_dict` after `_preprocess` returns: the
`setdefault` loop mutates the dict in place, the rest of `_preprocess`
builds fresh frames. -/
def mutatedCase (caseDict : RawCase) : RawCase :=
  setdefaults caseDict

/-- The 13-column `FeatureSchema` of the worked example (spec section 8.6). -/
def exampleSchema : List String :=
  ["building_age", "main_area", "balcony_area", "floor", "total_floors",
   "has_parking", "has_elevator",
   "district_臺北市內湖區", "district_臺北市士林區",
   "building_type_住宅大樓", "building_type_公寓",
   "main_use_住家用", "main_use_商業用"]

/-- The worked-example `RawCase` (spec section 8.6). -/
def exampleCase : RawCase :=
  [("district", CellVal.str "臺北市內湖區"),
   ("building_type", CellVal.str "住宅大樓"),
   ("main_use", CellVal.str "住家用"),
   ("building_age", CellVal.num 20),
   ("main_area", CellVal.num 30),
   ("balcony_area", CellVal.num 5),
   ("floor", CellVal.num 8),
   ("total_floors", CellVal.num 15),
   ("has_parking", CellVal.num 1),
   ("has_elevator", CellVal.num 1)]

/-! ### Association-list lookup helpers -/

theorem lookup_append_some {α β : Type} [BEq α] {a : α} {l₁ l₂ : List (α × β)}
    {v : β} (h : List.lookup a l₁ = some v) :
    List.lookup a (l₁ ++ l₂) = some v := by
  induction l₁ with
  | nil => simp [List.lookup] at h
  | cons p t ih =>
      rcases p with ⟨k, w⟩
      simp only [List.cons_append, List.lookup] at *
      cases hk : (a == k) with
      | true => rw [hk] at h; simpa [hk] using h
      | false => rw [hk] at h; simpa [hk] using ih h

theorem lookup_append_none {α β : Type} [BEq α] {a : α} {l₁ : List (α × β)}
    (l₂ : List (α × β)) (h : List.lookup a l₁ = none) :
    List.lookup a (l₁ ++ l₂) = List.lookup a l₂ := by
  induction l₁ with
  | nil => rfl
  | cons p t ih =>
      rcases p with ⟨k, w⟩
      simp only [List.cons_append, List.lookup] at *
      cases hk : (a == k) with
      | true => rw [hk] at h; simp at h
      | false => rw [hk] at h; simpa [hk] using ih h

theorem lookup_map_pair {l : List String} {a : String} (v : CellVal)
    (h : a ∈ l) :
    List.lookup a (l.map (fun s => (s, v))) = some v := by
  induction l with
  | nil => cases h
  | cons x t ih =>
      rcases List.mem_cons.mp h with rfl | hmem
      · simp [List.lookup]
      · by_cases hax : a = x
        · subst hax; simp [List.lookup]
        · have hb : (a == x) = false := beq_eq_false_iff_ne.mpr hax
          simpa [List.lookup, hb] using ih hmem

/-! ### C1 : schema fidelity -/

theorem addMissing_lookup_isSome (row : RawCase) (schema : List String)
    (s : String) (hs : s ∈ schema) :
    (List.lookup s (addMissing row schema)).isSome := by
  unfold addMissing
  cases h : List.lookup s row with
  | some v => rw [lookup_append_some h]; rfl
  | none =>
      rw [lookup_append_none _ h, lookup_map_pair]
      · rfl
      · simp [List.mem_filter, hs, h]

theorem selectSchema_map_fst (row : RawCase) (schema : List String)
    (h : ∀ s ∈ schema, (List.lookup s row).isSome) :
    (selectSchema row schema).map Prod.fst = schema := by
  induction schema with
  | nil => rfl
  | cons x t ih =>
      unfold selectSchema at *
      simp only [List.filterMap_cons]
      cases hx : List.lookup x row with
      | none =>
          have hmm := h x (List.mem_cons_self x t)
          rw [hx] at hmm
          simp at hmm
      | some v =>
          simp only [Option.map_some', List.map_cons]
          rw [ih (fun s hs => h s (List.mem_cons_of_mem _ hs))]

/-- C1: for every RawCase mapping and every FeatureSchema, the column names
of the aligned vector produced by `_preprocess` are exactly the schema, in
schema order — no extra columns, no missing columns. -/
theorem schema_fidelity (caseDict : RawCase) (schema : List String) :
    (preprocess caseDict schema).map Prod.fst = schema := by
  unfold preprocess
  exact selectSchema_map_fst _ _
    (fun s hs => addMissing_lookup_isSome _ _ s hs)

/-- C5: on the worked example of spec section 8.6, `_preprocess` produces
exactly the active indicators (value 1), the inactive indicators (value 0)
and the untouched numeric values, in the declared schema order. -/
theorem worked_example_alignment :
    preprocess exampleCase exampleSchema =
      [("building_age", CellVal.num 20),
       ("main_area", CellVal.num 30),
       ("balcony_area", CellVal.num 5),
       ("floor", CellVal.num 8),
       ("total_floors", CellVal.num 15),
       ("has_parking", CellVal.num 1),
       ("has_elevator", CellVal.num 1),
       ("district_臺北市內湖區", CellVal.num 1),
       ("district_臺北市士林區", CellVal.num 0),
       ("building_type_住宅大樓", CellVal.num 1),
       ("building_type_公寓", CellVal.num 0),
       ("main_use_住家用", CellVal.num 1),
       ("main_use_商業用", CellVal.num 0)] := by
  decide

/-! ### The explanation composer (`generate_chinese_explanation`) -/

/-- Python `s.startswith(pre)`. -/
def strStartsWith (s pre : String) : Bool := pre.data.isPrefixOf s.data

/-- Worker for `strReplace`: replace every (non-overlapping, left-to-right)
occurrence of the pattern `p :: pat` by `rep`, as Python `str.replace`. -/
def replaceFrom (p : Char) (pat rep : List Char) : List Char → List Char
  | [] => []
  | c :: t =>
      if (p :: pat).isPrefixOf (c :: t) then
        rep ++ replaceFrom p pat rep (t.drop pat.length)
      else
        c :: replaceFrom p pat rep t
termination_by l => l.length

/-- Python `s.replace(pat, rep)` (all occurrences, scanning left to right;
the empty pattern never occurs in the embedded code, modelled as identity). -/
def strReplace (s pat rep : String) : String :=
  match pat.data with
  | [] => s
  | p :: ps => String.mk (replaceFrom p ps rep.data s.data)

/-- The numeric-column label table `mapping` inside
`HousePricePredictor._pretty_name`, with its `mapping.get(col, col)`
fallback to the raw column name. -/
def mappingLabel (col : String) : String :=
  if col = "building_age" then "屋齡（年）"
  else if col = "building_area_sqm" then "建物移轉面積（㎡）"
  else if col = "main_area" then "主建物面積（坪）"
  else if col = "balcony_area" then "陽台面積（坪）"
  else if col = "floor" then "所在樓層"
  else if col = "total_floors" then "總樓層數"
  else if col = "has_parking" then "是否有車位"
  else if col = "has_elevator" then "是否有電梯"
  else col

/-- `HousePricePredictor._pretty_name` (lines 57-77 of `predict.py`). -/
def prettyName (col : String) (value : Option CellVal) : String :=
  if strStartsWith col "district_" then
    "行政區：" ++ strReplace col "district_" ""
  else if strStartsWith col "building_type_" then
    "建物型態：" ++ strReplace col "building_type_" ""
  else if strStartsWith col "main_use_" then
    "主要用途：" ++ strReplace col "main_use_" ""
  else
    match value with
    | some v => mappingLabel col ++ " = " ++ strOfCell v
    | none => mappingLabel col

/-- Round to the nearest integer (halves up): `⌊q + 1/2⌋`, written with
`Int.fdiv` so that it evaluates by kernel reduction. -/
def roundq (q : ℚ) : ℤ := Int.fdiv (2 * q.num + q.den) (2 * q.den)

/-- Python `f"{x:.2f}"` on an exact rational: round to the nearest
hundredth and print with two decimal digits. -/
def fmt2 (q : ℚ) : String :=
  let n : ℤ := roundq (q * 100)
  let a : ℕ := n.natAbs
  let sign : String := if n < 0 then "-" else ""
  let fp : ℕ := a % 100
  sign ++ toString (a / 100) ++ "." ++
    (if fp < 10 then "0" ++ toString fp else toString fp)

/-- The ranking key of line 126 of `predict.py`: `abs(x[1])`, the absolute
attribution value of a `(column, shap_value, data)` triple. -/
def itemKey (t : String × ℚ × CellVal) : ℚ := abs t.2.1

/-- Insert into a descending-by-key list, before the first element of
strictly smaller key (so that among equal keys, the element inserted first
in original order stays first — the stability of Python `sorted`). -/
def insertDesc {α : Type} (key : α → ℚ) (x : α) : List α → List α
  | [] => [x]
  | y :: ys => if key x < key y then y :: insertDesc key x ys else x :: y :: ys

/-- Stable descending sort by a rational key: the embedding of Python
`sorted(l, key=key, reverse=True)` (stable, equal keys keep original
order). -/
def sortByKeyDesc {α : Type} (key : α → ℚ) : List α → List α
  | [] => []
  | x :: xs => insertDesc key x (sortByKeyDesc key xs)

/-- Lines 124-128 of `predict.py`:
`sorted(zip(X_case.columns, sv, X_case.iloc[0]), key=abs(x[1]), reverse=True)[:top_n]`
(note `zip` silently truncates to the shortest of the three sequences). -/
def composeItems (cols : List String) (sv : List ℚ) (vals : List CellVal)
    (top_n : ℕ) : List (String × ℚ × CellVal) :=
  (sortByKeyDesc itemKey (cols.zip (sv.zip vals))).take top_n

/-- Header line (line 131 of `predict.py`), stating the SHAP base value. -/
def mkHeaderLine (base : ℚ) : String :=
  "本模型以整體樣本平均單價 " ++ fmt2 base ++ " 萬 / 坪為基準，"

/-- Trailer line (line 132 of `predict.py`), stating the predicted price. -/
def mkTrailerLine (p : ℚ) : String :=
  "此物件預測單價約為 " ++ fmt2 p ++ " 萬 / 坪。"

/-- One narration line of the loop at lines 137-142 of `predict.py`
(direction `提高` for a positive attribution, `降低` otherwise — including
an attribution of exactly 0). -/
def mkItemLine (t : String × ℚ × CellVal) : String :=
  let d : String := if t.2.1 > 0 then "提高" else "降低"
  "- " ++ prettyName t.1 (some t.2.2) ++ "，使單價約" ++ d ++ " " ++
    fmt2 (abs t.2.1) ++ " 萬 / 坪"

/-- The list `lines` built by `generate_chinese_explanation`
(lines 117-144 of `predict.py`), with `pred = base + sv.sum()` computed from
the full attribution vector.  Inputs are the aligned vector
(`cols` / `vals`), the oracle output (`sv` / `base`) and `top_n`. -/
def composeLines (cols : List String) (vals : List CellVal) (sv : List ℚ)
    (base : ℚ) (top_n : ℕ) : List String :=
  [mkHeaderLine base, mkTrailerLine (base + sv.sum), "", "主要影響因素如下："] ++
    (composeItems cols sv vals top_n).map mkItemLine

/-- `HousePricePredictor.generate_chinese_explanation`: the final
`"\n".join(lines)`. -/
def generate_chinese_explanation (cols : List String) (vals : List CellVal)
    (sv : List ℚ) (base : ℚ) (top_n : ℕ) : String :=
  String.intercalate "\n" (composeLines cols vals sv base top_n)

/-! ### Constructor checks (`HousePricePredictor.__init__`, lines 30-45) -/

/-- The fixed message raised when the feature-list file is absent: it names
the default artifact name, not the `feature_path` argument. -/
def defaultFeatureMsg : String := "❌ 找不到 model_features.pkl，請確認已 push 到 GitHub"

/-- The artifact-existence checks at the top of
`HousePricePredictor.__init__`, with the filesystem abstracted as the
predicate `pathOnDisk`; an `Except.error` is a raised `FileNotFoundError`
carrying the message. -/
def initPredictor (pathOnDisk : String → Bool)
    (model_path feature_path : String) : Except String Unit :=
  if pathOnDisk model_path = false then
    Except.error ("❌ 找不到模型檔：" ++ model_path)
  else if pathOnDisk feature_path = false then
    Except.error defaultFeatureMsg
  else
    Except.ok ()

/-- Substring test on character lists (used to state whether an error
message names a path). -/
def containsSub (needle : List Char) : List Char → Bool
  | [] => needle.isEmpty
  | c :: t => needle.isPrefixOf (c :: t) || containsSub needle t

/-- Whether the message `msg` mentions the path `path` as a substring. -/
def mentionsPath (msg path : String) : Bool := containsSub path.data msg.data

attribute [local semireducible] Rat.mul Rat.add Rat.sub Rat.inv

/-! ### Properties of the stable descending sort -/

theorem mem_insertDesc {α : Type} (key : α → ℚ) (x z : α) (l : List α) :
    z ∈ insertDesc key x l ↔ z = x ∨ z ∈ l := by
  induction l with
  | nil => simp [insertDesc]
  | cons y ys ih =>
      unfold insertDesc
      split
      · rw [List.mem_cons, ih, List.mem_cons]
        tauto
      · simp only [List.mem_cons]

theorem length_insertDesc {α : Type} (key : α → ℚ) (x : α) (l : List α) :
    (insertDesc key x l).length = l.length + 1 := by
  induction l with
  | nil => rfl
  | cons y ys ih =>
      unfold insertDesc
      split
      · simp only [List.length_cons, ih]
      · simp only [List.length_cons]

theorem length_sortByKeyDesc {α : Type} (key : α → ℚ) (l : List α) :
    (sortByKeyDesc key l).length = l.length := by
  induction l with
  | nil => rfl
  | cons x xs ih =>
      unfold sortByKeyDesc
      rw [length_insertDesc, ih, List.length_cons]

theorem mem_sortByKeyDesc {α : Type} (key : α → ℚ) (z : α) (l : List α) :
    z ∈ sortByKeyDesc key l ↔ z ∈ l := by
  induction l with
  | nil => simp [sortByKeyDesc]
  | cons x xs ih =>
      unfold sortByKeyDesc
      rw [mem_insertDesc]
      simp [ih]

theorem map_insertDesc {α β : Type} (key : β → ℚ) (f : α → β) (x : α)
    (l : List α) :
    insertDesc key (f x) (l.map f) =
      (insertDesc (fun y => key (f y)) x l).map f := by
  induction l with
  | nil => rfl
  | cons y ys ih =>
      simp only [List.map_cons]
      by_cases h : key (f x) < key (f y)
      · simp [insertDesc, h, ih]
      · simp [insertDesc, h]

theorem map_sortByKeyDesc {α β : Type} (key : β → ℚ) (f : α → β)
    (l : List α) :
    sortByKeyDesc key (l.map f) =
      (sortByKeyDesc (fun y => key (f y)) l).map f := by
  induction l with
  | nil => rfl
  | cons x xs ih =>
      simp only [List.map_cons]
      unfold sortByKeyDesc
      rw [ih, map_insertDesc]

/-- The ranking order the claim C3 asserts: strictly larger key first, ties
broken by strictly smaller original index. -/
def keyIdxOrd {α : Type} (key : α → ℚ) (idx : α → ℕ) (a b : α) : Prop :=
  key a > key b ∨ (key a = key b ∧ idx a < idx b)

theorem pairwise_insertDesc {α : Type} (key : α → ℚ) (idx : α → ℕ) (x : α)
    (l : List α) (hl : l.Pairwise (keyIdxOrd key idx))
    (hx : ∀ y ∈ l, idx x < idx y) :
    (insertDesc key x l).Pairwise (keyIdxOrd key idx) := by
  induction l with
  | nil => simp [insertDesc]
  | cons y ys ih =>
      rw [List.pairwise_cons] at hl
      obtain ⟨hy, hys⟩ := hl
      unfold insertDesc
      split
      · rename_i hlt
        rw [List.pairwise_cons]
        refine ⟨?_, ih hys (fun z hz => hx z (List.mem_cons_of_mem _ hz))⟩
        intro z hz
        rcases (mem_insertDesc key x z ys).mp hz with rfl | hzys
        · exact Or.inl hlt
        · exact hy z hzys
      · rename_i hnlt
        push_neg at hnlt
        rw [List.pairwise_cons]
        constructor
        · intro z hz
          rcases List.mem_cons.mp hz with rfl | hzys
          · rcases lt_or_eq_of_le hnlt with h | h
            · exact Or.inl h
            · exact Or.inr ⟨h.symm, hx z (List.mem_cons_self z ys)⟩
          · rcases hy z hzys with h | ⟨heq, _⟩
            · rcases lt_or_eq_of_le hnlt with h2 | h2
              · exact Or.inl (lt_trans h h2)
              · exact Or.inl (h2 ▸ h)
            · rcases lt_or_eq_of_le hnlt with h2 | h2
              · exact Or.inl (heq ▸ h2)
              · exact Or.inr ⟨h2.symm.trans heq,
                  hx z (List.mem_cons_of_mem _ hzys)⟩
        · rw [List.pairwise_cons]
          exact ⟨hy, hys⟩

theorem pairwise_sortByKeyDesc {α : Type} (key : α → ℚ) (idx : α → ℕ)
    (l : List α) (hl : l.Pairwise (fun a b => idx a < idx b)) :
    (sortByKeyDesc key l).Pairwise (keyIdxOrd key idx) := by
  induction l with
  | nil => simp [sortByKeyDesc]
  | cons x xs ih =>
      rw [List.pairwise_cons] at hl
      obtain ⟨hx, hxs⟩ := hl
      unfold sortByKeyDesc
      exact pairwise_insertDesc key idx x _ (ih hxs)
        (fun y hy => hx y ((mem_sortByKeyDesc key y xs).mp hy))

theorem le_fst_of_mem_enumFrom {α : Type} {p : ℕ × α} {n : ℕ} {l : List α}
    (h : p ∈ List.enumFrom n l) : n ≤ p.1 := by
  induction l generalizing n with
  | nil => simp [List.enumFrom] at h
  | cons x xs ih =>
      simp only [List.enumFrom, List.mem_cons] at h
      rcases h with rfl | h2
      · exact le_refl n
      · exact Nat.le_of_succ_le (ih h2)

theorem pairwise_fst_lt_enumFrom {α : Type} (n : ℕ) (l : List α) :
    (List.enumFrom n l).Pairwise (fun a b => a.1 < b.1) := by
  induction l generalizing n with
  | nil => simp [List.enumFrom]
  | cons x xs ih =>
      simp only [List.enumFrom]
      rw [List.pairwise_cons]
      exact ⟨fun p hp => Nat.lt_of_succ_le (le_fst_of_mem_enumFrom hp),
        ih (n + 1)⟩

theorem pairwise_fst_lt_enum {α : Type} (l : List α) :
    l.enum.Pairwise (fun a b => a.1 < b.1) :=
  pairwise_fst_lt_enumFrom 0 l

/-- The concrete ranking order of C3, on index-tagged
`(column, attribution, value)` triples. -/
def rankOrd : ℕ × (String × ℚ × CellVal) → ℕ × (String × ℚ × CellVal) → Prop :=
  keyIdxOrd (fun p => itemKey p.2) Prod.fst

/-! ### C3 : deterministic ranking -/

/-- C3: two invocations of the composer on identical inputs produce the
identical (byte-identical) output — the composer is a pure function of its
inputs — and the ranked sequence it narrates is the stable descending sort
of the `(column, attribution, value)` triples: tagging each triple with its
original position, the ranking is ordered by strictly descending absolute
attribution, with ties broken by strictly increasing original (schema)
position. -/
theorem deterministic_ranking (cols : List String) (vals : List CellVal)
    (sv : List ℚ) (base : ℚ) (top_n : ℕ) :
    generate_chinese_explanation cols vals sv base top_n =
        generate_chinese_explanation cols vals sv base top_n ∧
      sortByKeyDesc itemKey (cols.zip (sv.zip vals)) =
        (sortByKeyDesc (fun p => itemKey p.2)
          ((cols.zip (sv.zip vals)).enum)).map Prod.snd ∧
      (sortByKeyDesc (fun p => itemKey p.2)
          ((cols.zip (sv.zip vals)).enum)).Pairwise rankOrd := by
  refine ⟨rfl, ?_, ?_⟩
  · have h := map_sortByKeyDesc itemKey Prod.snd ((cols.zip (sv.zip vals)).enum)
    rw [List.enum_map_snd] at h
    exact h
  · exact pairwise_sortByKeyDesc _ _ _ (pairwise_fst_lt_enum _)

/-! ### C4 : top-N bound and the (absent) zero-attribution filter -/

/-- C4 counterexample: a column whose attribution is exactly 0 IS narrated
by the code (the claim says it never is): with a single column of
attribution 0 and `top_n = 1`, the triple is selected and its narration
line (wording `降低 0.00`) appears in the output. -/
theorem zero_attribution_counterexample :
    ("a", (0 : ℚ), CellVal.num 3) ∈ composeItems ["a"] [0] [CellVal.num 3] 1 ∧
      mkItemLine ("a", (0 : ℚ), CellVal.num 3) ∈
        composeLines ["a"] [CellVal.num 3] [0] 0 1 := by
  constructor
  · decide
  · decide

/-- C4 amended: for shape-consistent inputs the narration always has
exactly `min top_n (number of columns)` lines — at most `top_n`, and
strictly fewer exactly when there are fewer than `top_n` columns in total;
zero-attribution columns are narrated like any other (no zero filter
exists in the code). -/
theorem topn_bound_amended (cols : List String) (sv : List ℚ)
    (vals : List CellVal) (top_n : ℕ)
    (hsv : sv.length = cols.length) (hvals : vals.length = cols.length) :
    (composeItems cols sv vals top_n).length = min top_n cols.length := by
  unfold composeItems
  rw [List.length_take, length_sortByKeyDesc, List.length_zip,
    List.length_zip, hsv, hvals]
  simp

theorem topn_bound_amended_witness :
    [(5 : ℚ), -2].length = ["a", "b"].length ∧
      [CellVal.num 1, CellVal.num 2].length = ["a", "b"].length ∧
      (composeItems ["a", "b"] [5, -2] [CellVal.num 1, CellVal.num 2] 5).length
        = min 5 ["a", "b"].length :=
  ⟨by decide, by decide,
    topn_bound_amended ["a", "b"] [5, -2] [CellVal.num 1, CellVal.num 2] 5
      (by decide) (by decide)⟩

/-! ### C7 : shape mismatch between vector and attributions -/

/-- C7 counterexample: on a 2-column FeatureVector paired with a 1-entry
attribution vector (a shape mismatch), the composer does not fail at all:
it silently zips the sequences down to the shorter length and returns a
well-formed narration with a single item line. -/
theorem consistency_counterexample :
    composeLines ["a", "b"] [CellVal.num 1, CellVal.num 2] [5] 0 8 =
        [mkHeaderLine 0, mkTrailerLine 5, "", "主要影響因素如下：",
          mkItemLine ("a", 5, CellVal.num 1)] ∧
      (composeItems ["a", "b"] [5] [CellVal.num 1, CellVal.num 2] 8).length
        = 1 := by
  constructor
  · decide
  · decide

/-- C7 amended: the composer never signals a shape mismatch; `zip`
silently truncates, so the narrated sequence always has exactly
`min top_n (min cols (min attributions values))` lines, for every
combination of lengths. -/
theorem consistency_amended (cols : List String) (sv : List ℚ)
    (vals : List CellVal) (top_n : ℕ) :
    (composeItems cols sv vals top_n).length =
      min top_n (min cols.length (min sv.length vals.length)) := by
  unfold composeItems
  rw [List.length_take, length_sortByKeyDesc, List.length_zip,
    List.length_zip]

/-! ### C2 / C10 : the trailer line and the reconciled prediction -/

theorem mkTrailerLine_eq_iff (x y : ℚ) :
    mkTrailerLine x = mkTrailerLine y ↔ fmt2 x = fmt2 y := by
  constructor
  · intro h
    unfold mkTrailerLine at h
    have hd := congrArg String.data h
    simp only [String.data_append, List.append_assoc] at hd
    have h1 := List.append_cancel_left hd
    have h2 := List.append_cancel_right h1
    exact String.ext h2
  · intro h
    unfold mkTrailerLine
    rw [h]

/-- C2 counterexample: take one column with attribution 1.0049, base 0, and
an external model prediction of 1.0051.  The reconciliation hypothesis
holds (|1.0049 - 1.0051| = 0.0002 ≤ 0.001), yet the trailer line renders
the internally accumulated 1.0049 as `1.00`, not the prediction's `1.01`:
the trailer does not state the original prediction verbatim. -/
theorem reconciliation_counterexample :
    |((0 : ℚ) + List.sum [(10049 : ℚ) / 10000]) - 10051 / 10000| ≤ 1 / 1000 ∧
      (composeLines ["a"] [CellVal.num 1] [10049 / 10000] 0 8).get? 1 ≠
        some (mkTrailerLine (10051 / 10000)) := by
  constructor
  · decide
  · decide

/-- C2 amended: the trailer line always states the composer's internally
accumulated `base + Σ(all attributions)` — the full accumulation, never a
partial sum over only the narrated `top_n` (the trailer is independent of
`top_n`) — and under the reconciliation hypothesis that full accumulation
equals the external prediction within the 1e-3 tolerance (verbatim exactly
when the reconciliation is exact). -/
theorem reconciliation_amended (cols : List String) (vals : List CellVal)
    (sv : List ℚ) (base : ℚ) (top_n : ℕ) (prediction : ℚ)
    (htol : |(base + sv.sum) - prediction| ≤ 1 / 1000) :
    (composeLines cols vals sv base top_n).get? 1 =
        some (mkTrailerLine (base + sv.sum)) ∧
      (∀ m : ℕ, (composeLines cols vals sv base m).get? 1 =
        (composeLines cols vals sv base top_n).get? 1) ∧
      |(base + sv.sum) - prediction| ≤ 1 / 1000 :=
  ⟨rfl, fun _ => rfl, htol⟩

theorem reconciliation_amended_witness :
    |((2 : ℚ) + List.sum [(1 : ℚ)]) - 3| ≤ 1 / 1000 ∧
      (composeLines ["a"] [CellVal.num 1] [1] 2 8).get? 1 =
        some (mkTrailerLine ((2 : ℚ) + List.sum [(1 : ℚ)])) :=
  ⟨by decide,
    (reconciliation_amended ["a"] [CellVal.num 1] [1] 2 8 3 (by decide)).1⟩

/-- C10: the narrated price is computed internally as base plus the sum of
ALL per-column attributions (the composer receives no prediction
parameter), so the trailer line coincides with the model's own prediction
value precisely to the extent that the rendered internal accumulation
equals the rendered prediction — i.e. exactly when (up to the 2-decimal
rendering) the oracle's reconciliation invariant holds exactly. -/
theorem narrated_price_internal (cols : List String) (vals : List CellVal)
    (sv : List ℚ) (base : ℚ) (top_n : ℕ) :
    (composeLines cols vals sv base top_n).get? 1 =
        some (mkTrailerLine (base + sv.sum)) ∧
      ∀ p : ℚ, (mkTrailerLine (base + sv.sum) = mkTrailerLine p ↔
        fmt2 (base + sv.sum) = fmt2 p) :=
  ⟨rfl, fun p => mkTrailerLine_eq_iff _ p⟩

/-! ### C9 : `_preprocess` mutates the caller's RawCase -/

theorem setdefault1_lookup_other (caseDict : RawCase) (c d : String)
    (h : c ≠ d) :
    List.lookup c (setdefault1 caseDict d) = List.lookup c caseDict := by
  unfold setdefault1
  split
  · rfl
  · cases hc : List.lookup c caseDict with
    | some v => exact lookup_append_some hc
    | none =>
        rw [lookup_append_none _ hc]
        have hb : (c == d) = false := beq_eq_false_iff_ne.mpr h
        simp [List.lookup, hb]

theorem setdefaults_foldl (cs : List String) (caseDict : RawCase)
    (hnd : cs.Nodup) :
    cs.foldl setdefault1 caseDict =
      caseDict ++
        (cs.filter (fun c => (List.lookup c caseDict).isNone)).map
          (fun c => (c, CellVal.str "")) := by
  induction cs generalizing caseDict with
  | nil => simp
  | cons c cs ih =>
      rw [List.nodup_cons] at hnd
      obtain ⟨hc, hnd⟩ := hnd
      simp only [List.foldl_cons]
      cases hl : List.lookup c caseDict with
      | some v =>
          have hstep : setdefault1 caseDict c = caseDict := by
            unfold setdefault1
            rw [if_pos (by rw [hl]; rfl)]
          rw [hstep, ih _ hnd, List.filter_cons]
          simp [hl]
      | none =>
          have hstep : setdefault1 caseDict c =
              caseDict ++ [(c, CellVal.str "")] := by
            unfold setdefault1
            rw [if_neg (by rw [hl]; simp)]
          rw [hstep, ih _ hnd]
          have hfc : cs.filter
              (fun x =>
                (List.lookup x (caseDict ++ [(c, CellVal.str "")])).isNone) =
              cs.filter (fun x => (List.lookup x caseDict).isNone) := by
            apply List.filter_congr
            intro x hx
            have hxc : x ≠ c := fun he => hc (he ▸ hx)
            cases hxl : List.lookup x caseDict with
            | some w => rw [lookup_append_some hxl]
            | none =>
                rw [lookup_append_none _ hxl]
                have hb : (x == c) = false := beq_eq_false_iff_ne.mpr hxc
                simp [List.lookup, hb]
          rw [hfc, List.filter_cons]
          simp [hl]

/-- C9 counterexample: `_preprocess` is not pure in its argument: called on
the empty RawCase, the caller's dict afterwards contains the three
empty-string categorical defaults inserted by the `setdefault` loop. -/
theorem purity_counterexample :
    mutatedCase [] ≠ ([] : RawCase) ∧
      mutatedCase [] =
        [("district", CellVal.str ""), ("building_type", CellVal.str ""),
         ("main_use", CellVal.str "")] := by
  constructor
  · decide
  · decide

/-- C9 amended: the only side effect of `_preprocess` on the caller's
RawCase is the `setdefault` loop: every categorical attribute missing from
the dict is appended, in `categorical_cols` order, with the empty-string
value; existing entries (keys, values and their order) are untouched, and
nothing else is modified. -/
theorem purity_amended (caseDict : RawCase) :
    mutatedCase caseDict =
      caseDict ++
        (categorical_cols.filter
          (fun c => (List.lookup c caseDict).isNone)).map
          (fun c => (c, CellVal.str "")) :=
  setdefaults_foldl categorical_cols caseDict (by decide)

/-! ### C8 : missing artifacts at construction time -/

theorem isPrefixOf_refl_append (l post : List Char) :
    l.isPrefixOf (l ++ post) = true := by
  induction l with
  | nil => cases post <;> rfl
  | cons c t ih => simp [List.isPrefixOf, ih]

theorem containsSub_append_left (pre l : List Char) :
    containsSub l (pre ++ l) = true := by
  induction pre with
  | nil =>
      cases l with
      | nil => rfl
      | cons c t =>
          show containsSub (c :: t) (c :: t) = true
          unfold containsSub
          have h : (c :: t).isPrefixOf (c :: t ++ []) = true :=
            isPrefixOf_refl_append (c :: t) []
          rw [List.append_nil] at h
          simp [h]
  | cons c t ih =>
      show containsSub l (c :: (t ++ l)) = true
      unfold containsSub
      simp [ih]

/-- C8 counterexample: constructing with an existing model file but a
missing, non-default feature-list path raises the error whose message is
the fixed string naming the default `model_features.pkl` — the message does
not name the missing `custom_features.pkl` path, contrary to the claim. -/
theorem missing_artifact_counterexample :
    initPredictor (fun p => p == "model.pkl") "model.pkl"
          "custom_features.pkl" = Except.error defaultFeatureMsg ∧
      mentionsPath defaultFeatureMsg "custom_features.pkl" = false := by
  constructor
  · rfl
  · decide

/-- C8 amended: with a missing model path the constructor fails before any
request is processed, with a message naming that model path; with the
model present and the feature-list path missing it fails with the FIXED
message naming the default `model_features.pkl`, not the supplied feature
path.  (The code raises `FileNotFoundError`, the concrete realisation of
the spec's `ConfigurationError`.) -/
theorem missing_artifact_amended (pathOnDisk : String → Bool)
    (model_path feature_path : String) :
    (pathOnDisk model_path = false →
      initPredictor pathOnDisk model_path feature_path =
          Except.error ("❌ 找不到模型檔：" ++ model_path) ∧
        mentionsPath ("❌ 找不到模型檔：" ++ model_path) model_path = true) ∧
      (pathOnDisk model_path = true → pathOnDisk feature_path = false →
        initPredictor pathOnDisk model_path feature_path =
          Except.error defaultFeatureMsg) := by
  constructor
  · intro h
    constructor
    · unfold initPredictor
      rw [h]
      simp
    · unfold mentionsPath
      rw [String.data_append]
      exact containsSub_append_left _ _
  · intro h1 h2
    unfold initPredictor
    rw [h1, h2]
    simp

theorem missing_artifact_amended_witness :
    initPredictor (fun _ => false) "m.pkl" "f.pkl" =
        Except.error ("❌ 找不到模型檔：" ++ "m.pkl") ∧
      mentionsPath ("❌ 找不到模型檔：" ++ "m.pkl") "m.pkl" = true :=
  (missing_artifact_amended (fun _ => false) "m.pkl" "f.pkl").1 rfl

/-! ### C6 : unknown category values behave like omitted attributes -/

theorem filterMap_congr_mem {α β : Type} {l : List α} {f g : α → Option β}
    (h : ∀ x ∈ l, f x = g x) : l.filterMap f = l.filterMap g := by
  induction l with
  | nil => rfl
  | cons x t ih =>
      rw [List.filterMap_cons, List.filterMap_cons,
        h x (List.mem_cons_self x t),
        ih (fun y hy => h y (List.mem_cons_of_mem _ hy))]

theorem align_congr (r1 r2 : RawCase) (schema : List String)
    (h : ∀ s ∈ schema, List.lookup s r1 = List.lookup s r2) :
    selectSchema (addMissing r1 schema) schema =
      selectSchema (addMissing r2 schema) schema := by
  have hmiss : schema.filter (fun s => (List.lookup s r1).isNone) =
      schema.filter (fun s => (List.lookup s r2).isNone) := by
    apply List.filter_congr
    intro s hs
    rw [h s hs]
  have hlook : ∀ s ∈ schema,
      List.lookup s (addMissing r1 schema) =
        List.lookup s (addMissing r2 schema) := by
    intro s hs
    unfold addMissing
    rw [hmiss]
    cases hs1 : List.lookup s r1 with
    | some w =>
        rw [lookup_append_some hs1,
          lookup_append_some ((h s hs).symm.trans hs1)]
    | none =>
        rw [lookup_append_none _ hs1,
          lookup_append_none _ ((h s hs).symm.trans hs1)]
  unfold selectSchema
  apply filterMap_congr_mem
  intro s hs
  rw [hlook s hs]

theorem setdefaults_lookup_cat (caseDict : RawCase) (c : String)
    (hc : c ∈ categorical_cols) :
    List.lookup c (setdefaults caseDict) =
      some ((List.lookup c caseDict).getD (CellVal.str "")) := by
  unfold setdefaults
  rw [setdefaults_foldl categorical_cols caseDict (by decide)]
  cases hl : List.lookup c caseDict with
  | some w => rw [lookup_append_some hl]; rfl
  | none =>
      rw [lookup_append_none _ hl, lookup_map_pair]
      · rfl
      · simp [List.mem_filter, hc, hl]

theorem filter_map_pair_noncat (l : List String)
    (hl : ∀ c ∈ l, c ∈ categorical_cols) :
    (l.map (fun c => (c, CellVal.str ""))).filter
      (fun p => !(categorical_cols.contains p.1)) = [] := by
  induction l with
  | nil => rfl
  | cons c t ih =>
      simp only [List.map_cons, List.filter_cons]
      have hm : c ∈ categorical_cols := hl c (List.mem_cons_self c t)
      have hsub : ∀ x ∈ t, x ∈ categorical_cols := by
        intro x hx
        exact hl x (List.mem_cons_of_mem _ hx)
      have ih2 := ih hsub
      simp [hm, ih2]
      exact hsub

theorem setdefaults_filter_noncat (caseDict : RawCase) :
    (setdefaults caseDict).filter
        (fun p => !(categorical_cols.contains p.1)) =
      caseDict.filter (fun p => !(categorical_cols.contains p.1)) := by
  unfold setdefaults
  rw [setdefaults_foldl categorical_cols caseDict (by decide),
    List.filter_append,
    filter_map_pair_noncat _ (fun c hc => (List.mem_filter.mp hc).1),
    List.append_nil]

/-- C6: for every RawCase omitting a categorical attribute, aligning with
that attribute set to a value whose indicator appears in no FeatureSchema
column produces the same FeatureVector as aligning with the attribute
omitted entirely — both reduce to no active indicator for that attribute.
The hypothesis `hwf` is the spec's data-model invariant that omission (the
empty-string category) is distinct from every trained category: no schema
column is a bare `"<attr>_"` indicator. -/
theorem unknown_category_robust (caseDict : RawCase) (a v : String)
    (schema : List String) (ha : a ∈ categorical_cols)
    (hnone : List.lookup a caseDict = none)
    (hv : (a ++ "_" ++ v) ∉ schema)
    (hwf : ∀ c ∈ categorical_cols, (c ++ "_") ∉ schema) :
    preprocess ((a, CellVal.str v) :: caseDict) schema =
      preprocess caseDict schema := by
  unfold preprocess
  apply align_congr
  intro s hs
  unfold get_dummies
  rw [setdefaults_filter_noncat, setdefaults_filter_noncat]
  simp only [categorical_cols, List.mem_cons, List.not_mem_nil, or_false]
    at ha
  rcases ha with rfl | rfl | rfl
  · have hfa : ((("district" : String), CellVal.str v) :: caseDict).filter
        (fun p => !(categorical_cols.contains p.1)) =
        caseDict.filter (fun p => !(categorical_cols.contains p.1)) := by
      rw [List.filter_cons]
      have hm : ("district" : String) ∈ categorical_cols := by decide
      simp [hm]
    rw [hfa]
    have hbd : (("building_type" : String) == "district") = false := by decide
    have hmd : (("main_use" : String) == "district") = false := by decide
    have h1d : List.lookup "district"
        (setdefaults (("district", CellVal.str v) :: caseDict)) =
        some (CellVal.str v) := by
      rw [setdefaults_lookup_cat _ _ (by decide)]
      simp [List.lookup]
    have h1b : List.lookup "building_type"
        (setdefaults (("district", CellVal.str v) :: caseDict)) =
        some ((List.lookup "building_type" caseDict).getD
          (CellVal.str "")) := by
      rw [setdefaults_lookup_cat _ _ (by decide)]
      simp [List.lookup, hbd]
    have h1m : List.lookup "main_use"
        (setdefaults (("district", CellVal.str v) :: caseDict)) =
        some ((List.lookup "main_use" caseDict).getD (CellVal.str "")) := by
      rw [setdefaults_lookup_cat _ _ (by decide)]
      simp [List.lookup, hmd]
    have h2d : List.lookup "district" (setdefaults caseDict) =
        some (CellVal.str "") := by
      rw [setdefaults_lookup_cat _ _ (by decide), hnone]
      rfl
    have h2b : List.lookup "building_type" (setdefaults caseDict) =
        some ((List.lookup "building_type" caseDict).getD
          (CellVal.str "")) :=
      setdefaults_lookup_cat _ _ (by decide)
    have h2m : List.lookup "main_use" (setdefaults caseDict) =
        some ((List.lookup "main_use" caseDict).getD (CellVal.str "")) :=
      setdefaults_lookup_cat _ _ (by decide)
    generalize hC0 : caseDict.filter
      (fun p => !(categorical_cols.contains p.1)) = C
    simp only [categorical_cols, List.filterMap_cons, List.filterMap_nil,
      h1d, h1b, h1m, h2d, h2b, h2m, Option.map_some', strOfCell]
    have hb1 : (s == "district_" ++ v) = false :=
      beq_eq_false_iff_ne.mpr (fun he => hv (he ▸ hs))
    have hb2 : (s == "district_") = false :=
      beq_eq_false_iff_ne.mpr
        (fun he => hwf "district" (by decide) (by rw [he] at hs; exact hs))
    have hee : ("district_" : String) ++ "" = "district_" := rfl
    cases hC : List.lookup s C with
    | some w => rw [lookup_append_some hC, lookup_append_some hC]
    | none =>
        rw [lookup_append_none _ hC, lookup_append_none _ hC]
        simp [List.lookup, hee, hb1, hb2]
  · have hfa : ((("building_type" : String), CellVal.str v) :: caseDict).filter
        (fun p => !(categorical_cols.contains p.1)) =
        caseDict.filter (fun p => !(categorical_cols.contains p.1)) := by
      rw [List.filter_cons]
      have hm : ("building_type" : String) ∈ categorical_cols := by decide
      simp [hm]
    rw [hfa]
    have hdb : (("district" : String) == "building_type") = false := by decide
    have hmb : (("main_use" : String) == "building_type") = false := by decide
    have h1d : List.lookup "district"
        (setdefaults (("building_type", CellVal.str v) :: caseDict)) =
        some ((List.lookup "district" caseDict).getD (CellVal.str "")) := by
      rw [setdefaults_lookup_cat _ _ (by decide)]
      simp [List.lookup, hdb]
    have h1b : List.lookup "building_type"
        (setdefaults (("building_type", CellVal.str v) :: caseDict)) =
        some (CellVal.str v) := by
      rw [setdefaults_lookup_cat _ _ (by decide)]
      simp [List.lookup]
    have h1m : List.lookup "main_use"
        (setdefaults (("building_type", CellVal.str v) :: caseDict)) =
        some ((List.lookup "main_use" caseDict).getD (CellVal.str "")) := by
      rw [setdefaults_lookup_cat _ _ (by decide)]
      simp [List.lookup, hmb]
    have h2d : List.lookup "district" (setdefaults caseDict) =
        some ((List.lookup "district" caseDict).getD (CellVal.str "")) :=
      setdefaults_lookup_cat _ _ (by decide)
    have h2b : List.lookup "building_type" (setdefaults caseDict) =
        some (CellVal.str "") := by
      rw [setdefaults_lookup_cat _ _ (by decide), hnone]
      rfl
    have h2m : List.lookup "main_use" (setdefaults caseDict) =
        some ((List.lookup "main_use" caseDict).getD (CellVal.str "")) :=
      setdefaults_lookup_cat _ _ (by decide)
    generalize hC0 : caseDict.filter
      (fun p => !(categorical_cols.contains p.1)) = C
    simp only [categorical_cols, List.filterMap_cons, List.filterMap_nil,
      h1d, h1b, h1m, h2d, h2b, h2m, Option.map_some', strOfCell]
    have hb1 : (s == "building_type_" ++ v) = false :=
      beq_eq_false_iff_ne.mpr (fun he => hv (he ▸ hs))
    have hb2 : (s == "building_type_") = false :=
      beq_eq_false_iff_ne.mpr
        (fun he => hwf "building_type" (by decide) (by rw [he] at hs; exact hs))
    have hee : ("building_type_" : String) ++ "" = "building_type_" := rfl
    cases hC : List.lookup s C with
    | some w => rw [lookup_append_some hC, lookup_append_some hC]
    | none =>
        rw [lookup_append_none _ hC, lookup_append_none _ hC]
        simp [List.lookup, hee, hb1, hb2]
  · have hfa : ((("main_use" : String), CellVal.str v) :: caseDict).filter
        (fun p => !(categorical_cols.contains p.1)) =
        caseDict.filter (fun p => !(categorical_cols.contains p.1)) := by
      rw [List.filter_cons]
      have hm : ("main_use" : String) ∈ categorical_cols := by decide
      simp [hm]
    rw [hfa]
    have hdm : (("district" : String) == "main_use") = false := by decide
    have hbm : (("building_type" : String) == "main_use") = false := by decide
    have h1d : List.lookup "district"
        (setdefaults (("main_use", CellVal.str v) :: caseDict)) =
        some ((List.lookup "district" caseDict).getD (CellVal.str "")) := by
      rw [setdefaults_lookup_cat _ _ (by decide)]
      simp [List.lookup, hdm]
    have h1b : List.lookup "building_type"
        (setdefaults (("main_use", CellVal.str v) :: caseDict)) =
        some ((List.lookup "building_type" caseDict).getD
          (CellVal.str "")) := by
      rw [setdefaults_lookup_cat _ _ (by decide)]
      simp [List.lookup, hbm]
    have h1m : List.lookup "main_use"
        (setdefaults (("main_use", CellVal.str v) :: caseDict)) =
        some (CellVal.str v) := by
      rw [setdefaults_lookup_cat _ _ (by decide)]
      simp [List.lookup]
    have h2d : List.lookup "district" (setdefaults caseDict) =
        some ((List.lookup "district" caseDict).getD (CellVal.str "")) :=
      setdefaults_lookup_cat _ _ (by decide)
    have h2b : List.lookup "building_type" (setdefaults caseDict) =
        some ((List.lookup "building_type" caseDict).getD
          (CellVal.str "")) :=
      setdefaults_lookup_cat _ _ (by decide)
    have h2m : List.lookup "main_use" (setdefaults caseDict) =
        some (CellVal.str "") := by
      rw [setdefaults_lookup_cat _ _ (by decide), hnone]
      rfl
    generalize hC0 : caseDict.filter
      (fun p => !(categorical_cols.contains p.1)) = C
    simp only [categorical_cols, List.filterMap_cons, List.filterMap_nil,
      h1d, h1b, h1m, h2d, h2b, h2m, Option.map_some', strOfCell]
    have hb1 : (s == "main_use_" ++ v) = false :=
      beq_eq_false_iff_ne.mpr (fun he => hv (he ▸ hs))
    have hb2 : (s == "main_use_") = false :=
      beq_eq_false_iff_ne.mpr
        (fun he => hwf "main_use" (by decide) (by rw [he] at hs; exact hs))
    have hee : ("main_use_" : String) ++ "" = "main_use_" := rfl
    cases hC : List.lookup s C with
    | some w => rw [lookup_append_some hC, lookup_append_some hC]
    | none =>
        rw [lookup_append_none _ hC, lookup_append_none _ hC]
        simp [List.lookup, hee, hb1, hb2]

theorem unknown_category_robust_witness :
    List.lookup "district" [(("building_age" : String), CellVal.num 1)]
        = none ∧
      ("district" ++ "_" ++ "火星區") ∉ exampleSchema ∧
      preprocess (("district", CellVal.str "火星區") ::
          [("building_age", CellVal.num 1)]) exampleSchema =
        preprocess [("building_age", CellVal.num 1)] exampleSchema :=
  ⟨by decide, by decide,
    unknown_category_robust [("building_age", CellVal.num 1)] "district"
      "火星區" exampleSchema (by decide) (by decide) (by decide) (by decide)⟩

end HousePriceModel
